import Mathlib

/-!
Verification of the NLD concurrent knowledge-extraction pipeline.

This file gives a shallow embedding, in Lean 4, of the core of the
repository: the unified-diff line parser (`piplines/diff_extractor.py`,
`parse_diff_for_modified_lines`), the tolerant JSON extraction helpers
(`piplines/pipeline_extract.py`, `safe_json_loads`;
`src/pipelines/pipeline_extract.py`, `parse_vulnerability_knowledge`),
the bounded-retry generation wrapper (`generate_with_retry`), the
four-stage extraction worker (`extract_knowledge`), the resume-aware
scheduler (`process_item` / `extract_knowledge_pipeline`), and a
lock-based transition system modelling the concurrent append-and-flush
of results.

Python strings are modelled as `List Char`; Python dicts whose keys are
strings are modelled as association lists with overwrite-on-insert
semantics (so keys are unique, as in a real dict); Python exceptions are
modelled with `Except`; the standard-library `json.loads` (an external
collaborator of the code under test) is modelled by an executable
recursive-descent decoder `json_loads` for the JSON fragment exercised
here (objects, arrays, strings with simple escapes, integers, booleans,
null).
-/

namespace NLD

/-- JSON values, the result type of the modelled `json.loads`. -/
inductive JsonVal where
  | str (s : String)
  | num (n : Int)
  | bool (b : Bool)
  | null
  | arr (elems : List JsonVal)
  | obj (fields : List (String × JsonVal))

mutual

/-- Structural equality test on JSON values, modelling Python `==` (and
hence `set` membership) on decoded JSON data. -/
def jsonBeq : JsonVal → JsonVal → Bool
  | .str a, .str b => a == b
  | .num a, .num b => a == b
  | .bool a, .bool b => a == b
  | .null, .null => true
  | .arr a, .arr b => jsonBeqList a b
  | .obj a, .obj b => jsonBeqFields a b
  | _, _ => false

/-- Elementwise `jsonBeq` on lists. -/
def jsonBeqList : List JsonVal → List JsonVal → Bool
  | [], [] => true
  | a :: as, b :: bs => jsonBeq a b && jsonBeqList as bs
  | _, _ => false

/-- Elementwise `jsonBeq` on key-value lists. -/
def jsonBeqFields : List (String × JsonVal) → List (String × JsonVal) → Bool
  | [], [] => true
  | (k, v) :: as, (k', v') :: bs =>
    k == k' && jsonBeq v v' && jsonBeqFields as bs
  | _, _ => false

end

/-- The character `LEFT CURLY BRACKET`. -/
def lbrace : Char := Char.ofNat 123

/-- The character `RIGHT CURLY BRACKET`. -/
def rbrace : Char := Char.ofNat 125

/-- The character `LEFT SQUARE BRACKET`. -/
def lbrack : Char := Char.ofNat 91

/-- The character `RIGHT SQUARE BRACKET`. -/
def rbrack : Char := Char.ofNat 93

/-- Whitespace accepted between JSON tokens (as in Python's `json`). -/
def isJsonWs (c : Char) : Bool :=
  c = ' ' || c = '\t' || c = '\n' || c = '\r'

/-- Drop leading JSON whitespace. -/
def dropWs (cs : List Char) : List Char := cs.dropWhile isJsonWs

/-- Numeric value of a list of decimal digit characters. -/
def digitsToNat (ds : List Char) : Nat :=
  ds.foldl (fun n c => 10 * n + (c.toNat - 48)) 0

/-- Parse a nonempty maximal run of decimal digits at the head of the input,
returning its value and the rest.  Used both by the JSON decoder and by the
hunk-header matcher (a regex `\d+` group is greedy; since a digit can never
start the token that follows it, greedy matching is exact here). -/
def parseNatToken (cs : List Char) : Option (Nat × List Char) :=
  let p := cs.span (·.isDigit)
  if p.1.isEmpty then none else some (digitsToNat p.1, p.2)

/-- Parse the body of a JSON string after the opening quote, handling the
simple escapes; returns the decoded characters and the input after the
closing quote. -/
def parseJStringBody : List Char → Option (List Char × List Char)
  | [] => none
  | '\\' :: e :: rest =>
    match (match e with
      | '\"' => some '\"'
      | '\\' => some '\\'
      | '/' => some '/'
      | 'n' => some '\n'
      | 't' => some '\t'
      | 'r' => some '\r'
      | 'b' => some (Char.ofNat 8)
      | 'f' => some (Char.ofNat 12)
      | _ => none) with
    | some c =>
      match parseJStringBody rest with
      | some (s, r) => some (c :: s, r)
      | none => none
    | none => none
  | c :: rest =>
    if c = '\"' then some ([], rest)
    else
      match parseJStringBody rest with
      | some (s, r) => some (c :: s, r)
      | none => none

/-- Insert into a string-keyed dict with Python semantics: an existing key
is overwritten in place, a new key is appended. -/
def pySet (d : List (String × JsonVal)) (k : String) (v : JsonVal) :
    List (String × JsonVal) :=
  match d with
  | [] => [(k, v)]
  | (k', v') :: rest =>
    if k' = k then (k, v) :: rest else (k', v') :: pySet rest k v

/-- Python `d[k]` read on a string-keyed dict: `none` is a `KeyError`. -/
def pyGet (d : List (String × JsonVal)) (k : String) : Option JsonVal :=
  match d.find? (fun p => p.1 = k) with
  | some p => some p.2
  | none => none

/-- Python `d.get(k, default)` on a string-keyed dict. -/
def pyGetD (d : List (String × JsonVal)) (k : String) (dflt : JsonVal) :
    JsonVal :=
  match pyGet d k with
  | some v => v
  | none => dflt

mutual

/-- Fuel-indexed recursive-descent decoder for one JSON value; returns the
value and the unconsumed input. -/
def parseJVal : Nat → List Char → Option (JsonVal × List Char)
  | 0, _ => none
  | fuel + 1, cs =>
    match dropWs cs with
    | [] => none
    | c :: rest =>
      if c = '\"' then
        match parseJStringBody rest with
        | some (s, r) => some (.str (String.mk s), r)
        | none => none
      else if c = lbrace then parseJFields fuel (dropWs rest) []
      else if c = lbrack then parseJElems fuel (dropWs rest) []
      else if c = '-' then
        match parseNatToken rest with
        | some (n, r) => some (.num (-(n : Int)), r)
        | none => none
      else if c.isDigit then
        match parseNatToken (c :: rest) with
        | some (n, r) => some (.num (n : Int), r)
        | none => none
      else if ['t', 'r', 'u', 'e'].isPrefixOf (c :: rest) then
        some (.bool true, (c :: rest).drop 4)
      else if ['f', 'a', 'l', 's', 'e'].isPrefixOf (c :: rest) then
        some (.bool false, (c :: rest).drop 5)
      else if ['n', 'u', 'l', 'l'].isPrefixOf (c :: rest) then
        some (.null, (c :: rest).drop 4)
      else none

/-- Decode the members of a JSON object, positioned after `\x7b` (and after
any comma), whitespace already skipped; `acc` holds the members decoded so
far.  A closing brace ends the object only where the grammar allows it. -/
def parseJFields : Nat → List Char → List (String × JsonVal) →
    Option (JsonVal × List Char)
  | 0, _, _ => none
  | fuel + 1, cs, acc =>
    match cs with
    | [] => none
    | c :: rest =>
      if c = rbrace && acc.isEmpty then some (.obj [], rest)
      else if c = '\"' then
        match parseJStringBody rest with
        | some (k, r1) =>
          match dropWs r1 with
          | ':' :: r2 =>
            match parseJVal fuel r2 with
            | some (v, r3) =>
              let acc' := pySet acc (String.mk k) v
              match dropWs r3 with
              | ',' :: r4 => parseJFields fuel (dropWs r4) acc'
              | d :: r4 =>
                if d = rbrace then some (.obj acc', r4) else none
              | [] => none
            | none => none
          | _ => none
        | none => none
      else none

/-- Decode the elements of a JSON array, positioned after the opening
bracket (and after any comma), whitespace already skipped. -/
def parseJElems : Nat → List Char → List JsonVal →
    Option (JsonVal × List Char)
  | 0, _, _ => none
  | fuel + 1, cs, acc =>
    match cs with
    | [] => none
    | c :: rest =>
      if c = rbrack && acc.isEmpty then some (.arr [], rest)
      else
        match parseJVal fuel (c :: rest) with
        | some (v, r1) =>
          let acc' := acc ++ [v]
          match dropWs r1 with
          | ',' :: r2 => parseJElems fuel (dropWs r2) acc'
          | d :: r2 => if d = rbrack then some (.arr acc', r2) else none
          | [] => none
        | none => none

end

/-- Model of Python's `json.loads`: decode one JSON value and require that
only whitespace remains; `none` models the `JSONDecodeError` raise. -/
def json_loads (text : String) : Option JsonVal :=
  let cs := text.toList
  match parseJVal (cs.length + 2) cs with
  | some (v, rest) => if (dropWs rest).isEmpty then some v else none
  | none => none

/-! ### Python string primitives used by the pipeline code -/

/-- Python `str.splitlines` restricted to the line terminators that occur
in this repository's data (`\n`, `\r\n`, `\r`): no trailing empty line is
produced, and the empty string yields no lines. -/
def splitlines : List Char → List Char → List (List Char)
  | [], acc => if acc.isEmpty then [] else [acc.reverse]
  | '\r' :: '\n' :: rest, acc => acc.reverse :: splitlines rest []
  | '\n' :: rest, acc => acc.reverse :: splitlines rest []
  | '\r' :: rest, acc => acc.reverse :: splitlines rest []
  | c :: rest, acc => splitlines rest (c :: acc)

/-- Python `needle in hay` on strings (substring containment). -/
def containsSub (hay needle : List Char) : Bool :=
  if needle.isPrefixOf hay then true
  else
    match hay with
    | [] => false
    | _ :: t => containsSub t needle

/-- Split at the first occurrence of `needle`: the text before it and the
text after it.  `none` when `needle` does not occur. -/
def splitFirst (hay needle : List Char) : Option (List Char × List Char) :=
  if needle.isPrefixOf hay then some ([], hay.drop needle.length)
  else
    match hay with
    | [] => none
    | c :: t =>
      match splitFirst t needle with
      | some (b, a) => some (c :: b, a)
      | none => none

/-- Python `hay.split(needle)[0]`: the text before the first occurrence,
or the whole string when `needle` does not occur. -/
def beforeFirst (hay needle : List Char) : List Char :=
  match splitFirst hay needle with
  | some (b, _) => b
  | none => hay

/-- Python `hay.split(needle)[1]` / `hay.split(needle, 1)[1]`: the text
after the first occurrence.  Every caller in the code guards this with a
containment check, so the `none` fallback (returning `hay`) is
unreachable there. -/
def afterFirst (hay needle : List Char) : List Char :=
  match splitFirst hay needle with
  | some (_, a) => a
  | none => hay

/-- Python `str.strip()`: remove leading and trailing whitespace. -/
def pyStrip (cs : List Char) : List Char :=
  ((cs.dropWhile isJsonWs).reverse.dropWhile isJsonWs).reverse

/-- Python `str.find(c)` for a single character: index of the first
occurrence, `none` standing for `-1`. -/
def pyFindChar (cs : List Char) (c : Char) : Option Nat :=
  cs.findIdx? (· = c)

/-- Python `str.rfind(c)` for a single character: index of the last
occurrence, `none` standing for `-1`. -/
def pyRFindChar (cs : List Char) (c : Char) : Option Nat :=
  match cs.reverse.findIdx? (· = c) with
  | some i => some (cs.length - 1 - i)
  | none => none

/-! ### DiffParser

Embedding of `DiffExtractor.parse_diff_for_modified_lines`
(`piplines/diff_extractor.py`, lines 42-72). -/

/-- Consume the optional `(?:,\d+)?` group of the hunk-header regex
`@@ -(\d+)(?:,\d+)? \+(\d+)(?:,\d+)? @@`.  No backtracking is needed: when
a comma is present the empty alternative of the optional group can never
lead to a match, because the following mandatory character is a space. -/
def skipCommaCount (cs : List Char) : Option (List Char) :=
  match cs with
  | ',' :: r =>
    match parseNatToken r with
    | some (_, rr) => some rr
    | none => none
  | _ => some cs

/-- Match the core of the hunk-header regex anchored at the head of `cs`,
returning the two captured numbers. -/
def matchHunkAt (cs : List Char) : Option (Nat × Nat) := do
  let cs1 ← if ['@', '@', ' ', '-'].isPrefixOf cs then some (cs.drop 4) else none
  let (a, cs2) ← parseNatToken cs1
  let cs3 ← skipCommaCount cs2
  let cs4 ← if [' ', '+'].isPrefixOf cs3 then some (cs3.drop 2) else none
  let (c, cs5) ← parseNatToken cs4
  let cs6 ← skipCommaCount cs5
  if [' ', '@', '@'].isPrefixOf cs6 then some (a, c) else none

/-- Python `re.search` of the hunk-header pattern: leftmost match
anywhere in the line. -/
def searchHunk : List Char → Option (Nat × Nat)
  | [] => none
  | c :: rest =>
    match matchHunkAt (c :: rest) with
    | some r => some r
    | none => searchHunk rest

/-- The mutable state of the diff-parsing loop: the two accumulated
line-number lists and the two line cursors. -/
structure DiffState where
  added : List Nat
  deleted : List Nat
  current_old_line : Nat
  current_new_line : Nat
deriving DecidableEq, Repr

/-- One iteration of the loop body of `parse_diff_for_modified_lines`:
hunk headers reset the cursors, add/delete lines record one cursor and
advance it, any other line (including a `+++`/`---` file header and a
line starting with `@@` that does not match the hunk regex is treated as
the code treats it) advances per its branch. -/
def processDiffLine (st : DiffState) (line : List Char) : DiffState :=
  if ['@', '@'].isPrefixOf line then
    match searchHunk line with
    | some (a, c) => { st with current_old_line := a, current_new_line := c }
    | none => st
  else if ['+'].isPrefixOf line && not (['+', '+', '+'].isPrefixOf line) then
    { st with added := st.added ++ [st.current_new_line],
              current_new_line := st.current_new_line + 1 }
  else if ['-'].isPrefixOf line && not (['-', '-', '-'].isPrefixOf line) then
    { st with deleted := st.deleted ++ [st.current_old_line],
              current_old_line := st.current_old_line + 1 }
  else
    { st with current_old_line := st.current_old_line + 1,
              current_new_line := st.current_new_line + 1 }

/-- The full loop of `parse_diff_for_modified_lines`, exposing the final
state (including the final cursor values, which the Python function holds
in its local variables when the loop ends). -/
def parse_diff_state (diff_text : String) : DiffState :=
  (splitlines diff_text.toList []).foldl processDiffLine ⟨[], [], 0, 0⟩

/-- Embedding of `parse_diff_for_modified_lines`: the returned dictionary
`added`/`deleted` pair. -/
def parse_diff_for_modified_lines (diff_text : String) :
    List Nat × List Nat :=
  let st := parse_diff_state diff_text
  (st.added, st.deleted)

/-! ### KnowledgeParser

Embeddings of `safe_json_loads` (`piplines/pipeline_extract.py`, lines
69-87) and `parse_vulnerability_knowledge`
(`src/pipelines/pipeline_extract.py`, lines 164-188). -/

/-- Embedding of `safe_json_loads`: attempt a direct `json.loads`; on
failure locate the first opening brace and the last closing brace and
attempt to decode that substring; on failure return `None`. -/
def safe_json_loads (text : String) : Option JsonVal :=
  match json_loads text with
  | some v => some v
  | none =>
    let cs := text.toList
    match pyFindChar cs lbrace, pyRFindChar cs rbrace with
    | some s, some e =>
      if s < e then json_loads (String.mk ((cs.drop s).take (e + 1 - s)))
      else none
    | _, _ => none

/-- The literal three-backtick fence preceded by `json`. -/
def fenceJson : List Char := "```json".toList

/-- The literal three-backtick fence. -/
def fence : List Char := "```".toList

/-- The literal newline-plus-fence. -/
def fenceNl : List Char := "\n```".toList

/-- The quoted key `"vulnerability_behavior"` as it is searched for in the
raw LLM output. -/
def vbKey : List Char := "\"vulnerability_behavior\"".toList

/-- Embedding of `parse_vulnerability_knowledge`: strip a markdown fence
if present, re-anchor the text at the `"vulnerability_behavior"` key if
present, strip a trailing fence, then `json.loads`.  The error value is
the first 200 characters of the (transformed) text, which the Python code
prints when it re-raises the decode error. -/
def parse_vulnerability_knowledge (llm_output : String) :
    Except String JsonVal :=
  let cs0 := llm_output.toList
  let cs1 :=
    if containsSub cs0 fenceJson then beforeFirst (afterFirst cs0 fenceJson) fence
    else if containsSub cs0 fence then beforeFirst (afterFirst cs0 fence) fence
    else cs0
  let cs2 :=
    if containsSub cs1 vbKey then (lbrace :: vbKey) ++ afterFirst cs1 vbKey
    else cs1
  let cs3 :=
    if containsSub cs2 fenceNl then beforeFirst cs2 fenceNl
    else cs2
  match json_loads (String.mk cs3) with
  | some v => .ok v
  | none => .error (String.mk (cs3.take 200))

/-! ### Conversations and the generation capability -/

/-- One turn of a conversation sent to the generation capability. -/
structure Message where
  role : String
  content : String
deriving DecidableEq, Repr

/-- Embedding of `llm_client.generate_simple_prompt`: an optional system
turn followed by the user turn. -/
def generate_simple_prompt (user_message system_message : String) :
    List Message :=
  (if system_message ≠ "" then [⟨"system", system_message⟩] else []) ++
    [⟨"user", user_message⟩]

/-- Embedding of `llm_client.extract_LLM_response_by_prefix` (renamed
here because Lean reserves the original suffix): the text after the first
occurrence of the marker, stripped; the whole stripped response when the
marker is absent. -/
def extract_LLM_response_by_marker (response marker : String) : String :=
  let rs := response.toList
  let ms := marker.toList
  if containsSub rs ms then String.mk (pyStrip (afterFirst rs ms))
  else String.mk (pyStrip rs)

/-! ### RetryingGenerator

Embedding of the nested `generate_with_retry` of `extract_knowledge`
(`src/pipelines/pipeline_extract.py`, lines 198-210); the module-level
decorator `retry_on_failure` (lines 37-54) implements the identical
loop.  The underlying capability is modelled as a function from the
invocation index (how many invocations this record's processing has
already made) to the call's outcome; the wrapper returns the Python
result (`Except (Option E) A`, where `.error none` models the degenerate
`raise None` that only a zero attempt ceiling could reach) together with
the number of capability invocations it made. -/

/-- The retry loop: `remaining` attempts left, `idx` the next invocation
index, `last` the last exception seen (`None` before the first attempt). -/
def retryAux (cap : Nat → Except E A) :
    Nat → Nat → Option E → Except (Option E) A × Nat
  | 0, _, last => (.error last, 0)
  | remaining + 1, idx, _ =>
    match cap idx with
    | .ok a => (.ok a, 1)
    | .error e =>
      let r := retryAux cap remaining (idx + 1) (some e)
      (r.1, r.2 + 1)

/-- Embedding of `generate_with_retry`, starting at invocation index
`start`: up to `retry_time` total attempts, the last failure's cause
propagated. -/
def generate_with_retry (cap : Nat → Except E A) (retry_time start : Nat) :
    Except (Option E) A × Nat :=
  retryAux cap retry_time start none

/-! ### Python-level failure model -/

/-- The exceptions that the pipeline code can raise and catch. -/
inductive PyErr where
  | keyError (k : String)
  | typeError
  | attrError
  | parseError (snippet : String)
  | genError
deriving DecidableEq, Repr

/-- A Python dict with string keys, as held by the pipeline. -/
abbrev Dict := List (String × JsonVal)

/-- Python `item[k]`: a missing key raises `KeyError`. -/
def pyGetItem (d : Dict) (k : String) : Except PyErr JsonVal :=
  match pyGet d k with
  | some v => .ok v
  | none => .error (.keyError k)

/-- Python `k in v` for a string `k` against an arbitrary value: key test
on a dict, substring test on a string, membership on a list, `TypeError`
otherwise. -/
def pyContainsKey (v : JsonVal) (k : String) : Except PyErr Bool :=
  match v with
  | .obj fs => .ok (pyGet fs k).isSome
  | .str s => .ok (containsSub s.toList k.toList)
  | .arr xs => .ok (xs.any (fun x => jsonBeq x (.str k)))
  | _ => .error .typeError

/-- Python `v[k]` for a string `k` against an arbitrary value: dict lookup
(`KeyError` when absent), `TypeError` on anything else. -/
def pyIndexVal (v : JsonVal) (k : String) : Except PyErr JsonVal :=
  match v with
  | .obj fs => pyGetItem fs k
  | _ => .error .typeError

/-- Python `v.get(k, default)` against an arbitrary value: only dicts have
`.get`; anything else raises `AttributeError`. -/
def pyAttrGet (v : JsonVal) (k : String) (dflt : JsonVal) :
    Except PyErr JsonVal :=
  match v with
  | .obj fs => .ok (pyGetD fs k dflt)
  | _ => .error .attrError

/-- Python truthiness of a decoded JSON value (`if not data`). -/
def pyTruthy (v : JsonVal) : Bool :=
  match v with
  | .null => false
  | .bool b => b
  | .num n => n != 0
  | .str s => s ≠ ""
  | .arr xs => !xs.isEmpty
  | .obj fs => !fs.isEmpty

/-! ### ExtractionWorker

Embedding of `extract_knowledge` (`src/pipelines/pipeline_extract.py`,
lines 191-280).  The four prompt texts produced by
`generate_extract_prompt` are pure functions of the five item fields the
code passes in; no claim constrains the template contents, so the builder
is a parameter `prompts` of the model, applied to the item fields in the
order of the Python call.  The generation capability is a parameter
`cap`, taking the invocation index (number of capability invocations this
record's processing has already made, so that retry behaviour over time
is expressible) and the conversation. -/

/-- The prompt builder: `cve_id`, `cve_description`,
`function_modified_lines`, `code_before_change`, `code_after_change` to
the four stage prompts (purpose, function, analysis, knowledge). -/
abbrev PromptBuilder :=
  JsonVal → JsonVal → JsonVal → JsonVal → JsonVal →
    String × String × String × String

/-- The injected generation capability. -/
abbrev Cap := Nat → List Message → Except String String

/-- A failure of `generate_with_retry` surfaces to the worker as the last
underlying exception (a generic generation failure). -/
def liftGen (r : Except (Option String) String) : Except PyErr String :=
  match r with
  | .ok s => .ok s
  | .error _ => .error .genError

/-- Lines 242-265 of `extract_knowledge`: attach the stage-1/2/3 outputs
and the item's own fields to the decoded stage-4 object, hoist a `solution`
nested inside `vulnerability_behavior`, and flatten the three
`vulnerability_behavior` sub-fields with default-empty-string reads. -/
def assemble_output (item : Dict) (output0 : Dict)
    (analysis_output purpose_output function_output : String) :
    Except PyErr Dict := do
  let d := pySet output0 "analysis" (.str analysis_output)
  let d := pySet d "purpose"
    (.str (extract_LLM_response_by_marker purpose_output "Function purpose:"))
  let d := pySet d "function"
    (.str (extract_LLM_response_by_marker function_output
      "The functions of the code snippet are:"))
  let cid ← pyGetItem item "cve_id"
  let d := pySet d "CVE_id" cid
  let idv ← pyGetItem item "id"
  let d := pySet d "id" idv
  let cb ← pyGetItem item "code_before_change"
  let d := pySet d "code_before_change" cb
  let ca ← pyGetItem item "code_after_change"
  let d := pySet d "code_after_change" ca
  let ml ← pyGetItem item "function_modified_lines"
  let d := pySet d "modified_lines" ml
  let vb := pyGetD d "vulnerability_behavior" (.obj [])
  let hasSol ← pyContainsKey vb "solution"
  let d ← if hasSol then do
      let sv ← pyIndexVal vb "solution"
      pure (pySet d "solution" sv)
    else pure d
  let vb2 := pyGetD d "vulnerability_behavior" (.obj [])
  let v1 ← pyAttrGet vb2 "vulnerability_cause_description" (.str "")
  let d := pySet d "vulnerability_cause_description" v1
  let v2 ← pyAttrGet vb2 "trigger_condition" (.str "")
  let d := pySet d "trigger_condition" v2
  let v3 ← pyAttrGet vb2 "specific_code_behavior_causing_vulnerability" (.str "")
  pure (pySet d "specific_code_behavior_causing_vulnerability" v3)

/-- The `try` body of `extract_knowledge`: build the prompts, run the four
stages (stages 1-3 as fresh single-turn conversations; stage 4 on the
stage-3 conversation extended with the stage-3 response and the stage-4
prompt), parse, and assemble.  Returns the assembled record together with
the four conversations issued to the capability. -/
def extract_knowledge_body (prompts : PromptBuilder) (cap : Cap)
    (retry_time : Nat) (item : Dict) :
    Except PyErr (Dict × List (List Message)) := do
  let cid ← pyGetItem item "cve_id"
  let cdesc ← pyGetItem item "cve_description"
  let ml ← pyGetItem item "function_modified_lines"
  let cb ← pyGetItem item "code_before_change"
  let ca ← pyGetItem item "code_after_change"
  let (p1, p2, p3, p4) := prompts cid cdesc ml cb ca
  let m1 := generate_simple_prompt p1 ""
  let r1 := generate_with_retry (fun i => cap i m1) retry_time 0
  let purpose_output ← liftGen r1.1
  let m2 := generate_simple_prompt p2 ""
  let r2 := generate_with_retry (fun i => cap i m2) retry_time r1.2
  let function_output ← liftGen r2.1
  let m3 := generate_simple_prompt p3 ""
  let r3 := generate_with_retry (fun i => cap i m3) retry_time (r1.2 + r2.2)
  let analysis_output ← liftGen r3.1
  let m4 := m3 ++ [⟨"assistant", analysis_output⟩, ⟨"user", p4⟩]
  let r4 := generate_with_retry (fun i => cap i m4) retry_time
    (r1.2 + r2.2 + r3.2)
  let knowledge_extraction_output ← liftGen r4.1
  let parsed ← (match parse_vulnerability_knowledge knowledge_extraction_output with
    | .ok v => .ok v
    | .error s => .error (.parseError s) : Except PyErr JsonVal)
  let output0 ← (match parsed with
    | .obj fs => .ok fs
    | _ => .error .typeError : Except PyErr Dict)
  let d ← assemble_output item output0 analysis_output purpose_output
    function_output
  pure (d, [m1, m2, m3, m4])

/-- Embedding of `extract_knowledge` including its `try`/`except`
boundary: a body failure is logged (printing `item['cve_id']`!) and the
record is skipped (`.ok none`); the `.error` case models the `KeyError`
the handler itself raises when the item has no `cve_id`, which escapes
the per-record boundary. -/
def extract_knowledge_model (prompts : PromptBuilder) (cap : Cap)
    (retry_time : Nat) (item : Dict) : Except String (Option Dict) :=
  match extract_knowledge_body prompts cap retry_time item with
  | .ok (d, _) => .ok (some d)
  | .error _ =>
    match pyGet item "cve_id" with
    | some _ => .ok none
    | none => .error "KeyError: cve_id (raised inside the except handler)"

/-! ### ConcurrentScheduler (per-item control flow)

Embedding of `process_item` (lines 283-288) and
`extract_knowledge_pipeline` (lines 291-338).  The returned list has one
entry per input item: the worker's outcome (`none` for a skip) and
whether the worker (`extract_knowledge`) was invoked at all.  A
`.error` result models an exception escaping the pipeline (`sys.exit(1)`
on client-initialization failure, or an uncaught per-record error
re-raised when the executor's results are drained). -/

/-- Embedding of `process_item`: skip (without invoking the worker) when
the item's identifier is in the resume set, else run the worker.  The
`id` lookup itself happens outside any handler. -/
def process_item_model (prompts : PromptBuilder) (cap : Cap)
    (retry_time : Nat) (item : Dict) (resume_ids : List JsonVal) :
    Except String (Option Dict × Bool) :=
  match pyGet item "id" with
  | none => .error "KeyError: id (raised in process_item)"
  | some idv =>
    if resume_ids.any (fun x => jsonBeq x idv) then .ok (none, false)
    else
      match extract_knowledge_model prompts cap retry_time item with
      | .ok r => .ok (r, true)
      | .error e => .error e

/-- The resume-set construction `set(item["id"] for item in output_data)`
from a prior output (list of records); membership uses Python equality
(`jsonBeq`), and the set is modelled as the list of identifiers. -/
def resume_ids_of (prior : List Dict) : Except String (List JsonVal) :=
  match prior.mapM (fun d => pyGet d "id") with
  | some ids => .ok ids
  | none => .error "KeyError: id (while building the resume set)"

/-- Embedding of `extract_knowledge_pipeline` after input loading:
initialize the client (failure exits the process before any scheduling),
build the resume set from the prior output if resuming, then run
`process_item` over every input item.  The thread pool executes items
concurrently but `executor.map` re-raises the first per-item exception
when its results are drained, which `mapM` models. -/
def extract_knowledge_pipeline_model (initOk : Bool)
    (prompts : PromptBuilder) (cap : Cap) (retry_time : Nat)
    (data : List Dict) (resume : Option (List Dict)) :
    Except String (List (Option Dict × Bool)) :=
  match initOk with
  | false => .error "sys.exit(1): failed to initialize LLM client"
  | true =>
    match (match resume with
      | none => .ok []
      | some prior => resume_ids_of prior : Except String (List JsonVal)) with
    | .error e => .error e
    | .ok rset =>
      data.mapM (fun item => process_item_model prompts cap retry_time item rset)

/-! ### The single-call variant (`piplines/pipeline_extract.py`)

Embedding of `KnowledgeExtractor.process_single` (lines 97-141), which
issues one chain-of-thought prompt and parses the full record from the
single response.  The data transfer objects it constructs
(`VulnerabilityBehavior`, `VulnerabilityKnowledgeDTO`) live in
`dto/vulnerability_knowledge_dto.py`, which is not among the source
files. -/

/-- Embedding of `dto/rawdiffdto.py` (`RawDiffDTO`). -/
structure RawDiffDTO where
  cve_id : String
  code_before_change : String
  code_after_change : String
  patch : String
  function_modified_lines : JsonVal
  file_path : String
  commit_hash : String
  cwe : List String
  cve_description : String
  id : Int

/-- Modelled from the spec: `dto/vulnerability_knowledge_dto.py` is not
among the source files; the spec's `KnowledgeRecord` describes
`vulnerabilityBehavior` as three free-text fields, which matches the
constructor call in `KnowledgeExtractor.process_single`. -/
structure VulnerabilityBehavior where
  vulnerability_cause_description : String
  trigger_condition : String
  specific_code_behavior_causing_vulnerability : String
deriving DecidableEq, Repr

/-- Modelled from the spec: `dto/vulnerability_knowledge_dto.py` is not
among the source files; the field list follows the spec's
`KnowledgeRecord` and the keyword arguments of the constructor call in
`KnowledgeExtractor.process_single`. -/
structure VulnerabilityKnowledgeDTO where
  CVE_id : String
  vulnerability_behavior : VulnerabilityBehavior
  solution : String
  purpose : String
  function : String
  analysis : String
  code_before_change : String
  code_after_change : String
  modified_lines : JsonVal
  vulnerability_cause_description : String
  trigger_condition : String
  specific_code_behavior_causing_vulnerability : String

/-- Modelled from the spec: the DTO fields above are free-text (string)
fields, so the pydantic constructor validates each supplied value as a
string; a non-string value raises a validation error, caught by the
worker's handler.  The claims exercise only string-valued inputs. -/
def asPyStr (v : JsonVal) : Except PyErr String :=
  match v with
  | .str s => .ok s
  | _ => .error .typeError

/-- Embedding of `KnowledgeExtractor.process_single` from the LLM
response on: tolerant decode, Python falsy test, then DTO construction
with default-empty-string reads; any exception in the `try` block yields
`None`.  The response text is `client.generate(build_cot_prompt raw)`,
with the client an external collaborator. -/
def process_single_model (raw : RawDiffDTO) (response_text : String) :
    Option VulnerabilityKnowledgeDTO :=
  match safe_json_loads response_text with
  | none => none
  | some data =>
    if !pyTruthy data then none
    else
      match (do
        let fs ← (match data with
          | .obj fs => .ok fs
          | _ => .error .attrError : Except PyErr Dict)
        let vb_data := pyGetD fs "vulnerability_behavior" (.obj [])
        let v1 ← pyAttrGet vb_data "vulnerability_cause_description" (.str "")
        let v2 ← pyAttrGet vb_data "trigger_condition" (.str "")
        let v3 ← pyAttrGet vb_data "specific_code_behavior_causing_vulnerability" (.str "")
        let s1 ← asPyStr v1
        let s2 ← asPyStr v2
        let s3 ← asPyStr v3
        let sol ← asPyStr (pyGetD fs "solution" (.str ""))
        let purp ← asPyStr (pyGetD fs "purpose" (.str ""))
        let fnc ← asPyStr (pyGetD fs "function" (.str ""))
        let anl ← asPyStr (pyGetD fs "analysis" (.str ""))
        pure (VulnerabilityKnowledgeDTO.mk raw.cve_id
          (VulnerabilityBehavior.mk s1 s2 s3) sol purp fnc anl
          raw.code_before_change raw.code_after_change
          raw.function_modified_lines s1 s2 s3)
        : Except PyErr VulnerabilityKnowledgeDTO) with
      | .ok dto => some dto
      | .error _ => none

/-! ### Concurrency model of the append-and-flush sequence

The success path of `extract_knowledge` (lines 267-274) runs, for each of
the `n` concurrently processed records,

  with output_lock: output_data.append(record); with file_lock: write

so each worker performs, in order: acquire `output_lock` (only when free),
append its record to the shared buffer, acquire the nested `file_lock`,
overwrite the persistence target with the whole buffer, release
`file_lock`, release `output_lock`.  The transition system below is that
program at the granularity of those six atomic actions, one interleaved
step at a time; a thread pool of any size (the spec exercises
`workerCount = 8` over 50 records) only restricts which of these
interleavings occur. -/

/-- Program counter of one worker's append-and-flush sequence. -/
inductive WStep where
  | notStarted
  | acquiredOut
  | appended
  | acquiredFile
  | written
  | releasedFile
  | done
deriving DecidableEq, Repr

/-- The worker is inside the `output_lock` critical section. -/
def inCS : WStep → Bool
  | .notStarted => false
  | .done => false
  | _ => true

/-- The worker has already appended its record to the buffer. -/
def postAppend : WStep → Bool
  | .appended => true
  | .acquiredFile => true
  | .written => true
  | .releasedFile => true
  | .done => true
  | _ => false

/-- Shared state of the scheduler: the two locks, the shared result
buffer, the persisted file contents, and every worker's program
counter. -/
structure SchedState (n : Nat) (R : Type) where
  lockOut : Option (Fin n)
  lockFile : Option (Fin n)
  buffer : List R
  file : List R
  pcs : Fin n → WStep

/-- One atomic action of one worker, for the record assignment `rec`. -/
inductive SchedStep (rec : Fin n → R) :
    SchedState n R → SchedState n R → Prop where
  | acquireOut (i : Fin n) (s : SchedState n R) :
      s.pcs i = .notStarted → s.lockOut = none →
      SchedStep rec s { s with lockOut := some i,
                               pcs := Function.update s.pcs i .acquiredOut }
  | appendRec (i : Fin n) (s : SchedState n R) :
      s.pcs i = .acquiredOut →
      SchedStep rec s { s with buffer := s.buffer ++ [rec i],
                               pcs := Function.update s.pcs i .appended }
  | acquireFile (i : Fin n) (s : SchedState n R) :
      s.pcs i = .appended → s.lockFile = none →
      SchedStep rec s { s with lockFile := some i,
                               pcs := Function.update s.pcs i .acquiredFile }
  | writeFile (i : Fin n) (s : SchedState n R) :
      s.pcs i = .acquiredFile →
      SchedStep rec s { s with file := s.buffer,
                               pcs := Function.update s.pcs i .written }
  | releaseFile (i : Fin n) (s : SchedState n R) :
      s.pcs i = .written →
      SchedStep rec s { s with lockFile := none,
                               pcs := Function.update s.pcs i .releasedFile }
  | releaseOut (i : Fin n) (s : SchedState n R) :
      s.pcs i = .releasedFile →
      SchedStep rec s { s with lockOut := none,
                               pcs := Function.update s.pcs i .done }

/-- The initial state: locks free, buffer and file empty (a fresh run),
no worker started. -/
def initSched (n : Nat) (R : Type) : SchedState n R :=
  ⟨none, none, [], [], fun _ => .notStarted⟩

/-- Reachability from the initial state by interleaved worker actions. -/
def SchedReach (rec : Fin n → R) (s : SchedState n R) : Prop :=
  Relation.ReflTransGen (SchedStep rec) (initSched n R) s

/-- The inductive invariant of the scheduler: lock ownership matches
program counters, the buffer holds exactly the records of the workers
that have appended (each once), and the persisted file equals the buffer
whenever `output_lock` is free or its holder has already written. -/
structure SchedInv (rec : Fin n → R) (s : SchedState n R) : Prop where
  cs_lock : ∀ i, inCS (s.pcs i) → s.lockOut = some i
  lock_cs : ∀ i, s.lockOut = some i → inCS (s.pcs i)
  buf : ∃ l : List (Fin n), s.buffer = l.map rec ∧ l.Nodup ∧
    ∀ j, j ∈ l ↔ postAppend (s.pcs j)
  file_wf : ∃ lf : List (Fin n), s.file = lf.map rec ∧ lf.Nodup
  file_quiet : s.lockOut = none → s.file = s.buffer
  file_written : ∀ i, s.lockOut = some i →
    (s.pcs i = .written ∨ s.pcs i = .releasedFile) → s.file = s.buffer

/-! ### Concrete fixtures used by witnesses and counterexamples -/

/-- The single-hunk diff named by the spec's diff-parsing test: the hunk
header `@@ -10,3 +10,4 @@`, one context line, one deleted line, one added
line, one context line. -/
def specDiffExample : String := "@@ -10,3 +10,4 @@\n ctx\n-del\n+add\n ctx"

/-- A well-formed input item with identifier 1 and CVE tag `CVE-A`. -/
def sampleItemA : Dict :=
  [("id", .num 1), ("cve_id", .str "CVE-A"),
   ("cve_description", .str "desc A"),
   ("function_modified_lines", .obj []),
   ("code_before_change", .str "before A"),
   ("code_after_change", .str "after A")]

/-- A well-formed input item with identifier 2 and CVE tag `CVE-B`. -/
def sampleItemB : Dict :=
  [("id", .num 2), ("cve_id", .str "CVE-B"),
   ("cve_description", .str "desc B"),
   ("function_modified_lines", .obj []),
   ("code_before_change", .str "before B"),
   ("code_after_change", .str "after B")]

/-- A malformed input item: it has an identifier but no `cve_id`, so the
per-record `except` handler itself raises when it tries to log. -/
def badItem : Dict := [("id", .num 1)]

/-- A prior-output record carrying identifier 1 (the identifier of
`sampleItemA`), used to exercise resume. -/
def priorRecordA : Dict := [("id", .num 1), ("solution", .str "old")]

/-- A concrete prompt builder for witnesses: each stage prompt names the
CVE tag, so a capability can distinguish records by conversation
content. -/
def samplePrompts : PromptBuilder := fun cid _ _ _ _ =>
  match cid with
  | .str s => (s ++ ":p1", s ++ ":p2", s ++ ":p3", s ++ ":p4")
  | _ => ("p1", "p2", "p3", "p4")

/-- A capability response that decodes to an object with a flat
`solution` field. -/
def goodResponse : String := "\x7b\"solution\": \"do X\"\x7d"

/-- A concrete capability for witnesses: every call whose conversation
opens with a `CVE-A` prompt fails; every other call succeeds with
`goodResponse`. -/
def sampleCap : Cap := fun _ msgs =>
  match msgs with
  | m :: _ =>
    if ("CVE-A".toList).isPrefixOf m.content.toList then .error "boom"
    else .ok goodResponse
  | [] => .ok goodResponse

/-- A concrete `RawDiffDTO` for exercising the single-call variant. -/
def sampleRaw : RawDiffDTO :=
  ⟨"CVE-0000-0001", "before", "after", "patch", .obj [], "", "", [],
    "desc", 1⟩

/-- A decoded stage-4 object whose `vulnerability_behavior` is present
(with one sub-field) but which carries no `solution` key anywhere. -/
def decodedNoSolution : Dict :=
  [("vulnerability_behavior", .obj [("trigger_condition", .str "tc")])]

/-- A response decoding to a truthy object that carries none of the
record's fields. -/
def fooResponse : String := "\x7b\"note\": \"hi\"\x7d"

/-! ## Theorems

One theorem per frozen claim, preceded by helper lemmas where needed. -/

/-- Claim C2 (counterexample): the claim asserts that parsing the
single-hunk example diff yields deleted = \x7b10\x7d and added = \x7b11\x7d
with final cursors oldLine = 12 and newLine = 13; the code disagrees (the
deleted line is recorded as 11 and the final old cursor is 13). -/
theorem claim_C2_counterexample :
    ¬ (parse_diff_state specDiffExample = ⟨[11], [10], 12, 13⟩) := by
  decide

/-- Claim C2 (amended): parsing the unified diff consisting of the single
hunk header `@@ -10,3 +10,4 @@` followed by one context line, one deleted
line, one added line, and one context line yields deleted = \x7b11\x7d and
added = \x7b11\x7d, with final cursor values oldLine = 13 and newLine = 13;
the parser is a pure function of its input (so a second call on the same
input necessarily produces identical output). -/
theorem claim_C2_diff_parse :
    parse_diff_state specDiffExample = ⟨[11], [11], 13, 13⟩ ∧
    parse_diff_for_modified_lines specDiffExample = ([11], [11]) := by
  exact ⟨by decide, by decide⟩

/-- One loop iteration of the diff parser, on a line that matches no hunk
header, keeps the cursors below `k + 1` when they were below `k`, and
records only numbers below `k + 1`. -/
theorem processDiffLine_bound (st : DiffState) (l : List Char) (k : Nat)
    (hs : searchHunk l = none)
    (ho : st.current_old_line ≤ k) (hn : st.current_new_line ≤ k)
    (ha : ∀ x ∈ st.added, x < k) (hd : ∀ x ∈ st.deleted, x < k) :
    (processDiffLine st l).current_old_line ≤ k + 1 ∧
    (processDiffLine st l).current_new_line ≤ k + 1 ∧
    (∀ x ∈ (processDiffLine st l).added, x < k + 1) ∧
    (∀ x ∈ (processDiffLine st l).deleted, x < k + 1) := by
  unfold processDiffLine
  split
  · rw [hs]
    dsimp only
    exact ⟨by omega, by omega,
      fun x hx => Nat.lt_succ_of_lt (ha x hx),
      fun x hx => Nat.lt_succ_of_lt (hd x hx)⟩
  · split
    · refine ⟨by simp; omega, by simp; omega, ?_, ?_⟩
      · intro x hx
        simp only [List.mem_append, List.mem_singleton] at hx
        rcases hx with hx | rfl
        · exact Nat.lt_succ_of_lt (ha x hx)
        · omega
      · exact fun x hx => Nat.lt_succ_of_lt (hd x hx)
    · split
      · refine ⟨by simp; omega, by simp; omega, ?_, ?_⟩
        · exact fun x hx => Nat.lt_succ_of_lt (ha x hx)
        · intro x hx
          simp only [List.mem_append, List.mem_singleton] at hx
          rcases hx with hx | rfl
          · exact Nat.lt_succ_of_lt (hd x hx)
          · omega
      · exact ⟨by simp; omega, by simp; omega,
          fun x hx => Nat.lt_succ_of_lt (ha x hx),
          fun x hx => Nat.lt_succ_of_lt (hd x hx)⟩

/-- Folding the diff-parser loop over hunk-header-free lines keeps every
recorded line number below the starting bound plus the number of lines
processed. -/
theorem foldDiff_bound :
    ∀ (lines : List (List Char)) (st : DiffState) (k : Nat),
    (∀ l ∈ lines, searchHunk l = none) →
    st.current_old_line ≤ k → st.current_new_line ≤ k →
    (∀ x ∈ st.added, x < k) → (∀ x ∈ st.deleted, x < k) →
    (∀ x ∈ (lines.foldl processDiffLine st).added, x < k + lines.length) ∧
    (∀ x ∈ (lines.foldl processDiffLine st).deleted, x < k + lines.length)
  | [], st, k, _, _, _, ha, hd => by
    simpa using ⟨ha, hd⟩
  | l :: rest, st, k, h, ho, hn, ha, hd => by
    have hl := processDiffLine_bound st l k (h l (by simp)) ho hn ha hd
    have ih := foldDiff_bound rest (processDiffLine st l) (k + 1)
      (fun l' hl' => h l' (by simp [hl'])) hl.1 hl.2.1 hl.2.2.1 hl.2.2.2
    rw [List.foldl_cons]
    refine ⟨fun x hx => ?_, fun x hx => ?_⟩
    · have := ih.1 x hx
      simp only [List.length_cons]
      omega
    · have := ih.2 x hx
      simp only [List.length_cons]
      omega

/-- Claim C9: the diff parser is total (in this embedding it is a total
function by construction, with no exceptional exit): parsing the empty
string yields added = [] and deleted = []; and on any input none of whose
lines matches a hunk header, a best-effort result is still produced with
the cursors starting from 0 — every recorded line number stays below the
number of input lines. -/
theorem claim_C9_diff_no_failure :
    parse_diff_for_modified_lines "" = ([], []) ∧
    (∀ s : String,
      (∀ l ∈ splitlines s.toList [], searchHunk l = none) →
      (∀ x ∈ (parse_diff_state s).added,
        x < (splitlines s.toList []).length) ∧
      (∀ x ∈ (parse_diff_state s).deleted,
        x < (splitlines s.toList []).length)) := by
  constructor
  · decide
  · intro s hs
    have h := foldDiff_bound (splitlines s.toList []) ⟨[], [], 0, 0⟩ 0 hs
      (by simp) (by simp) (by simp) (by simp)
    simpa [parse_diff_state] using h

/-- Witness for claim C9 at the concrete headerless input `"+a\n-b"`:
both hypotheses hold and the recorded numbers (an added 0 and a deleted 0,
from cursors that started at 0) are below the line count 2. -/
theorem claim_C9_diff_no_failure_witness :
    (∀ l ∈ splitlines ("+a\n-b").toList [], searchHunk l = none) ∧
    (∀ x ∈ (parse_diff_state "+a\n-b").added, x < 2) ∧
    (∀ x ∈ (parse_diff_state "+a\n-b").deleted, x < 2) := by
  have hs : ∀ l ∈ splitlines ("+a\n-b").toList [], searchHunk l = none := by
    decide
  have h := claim_C9_diff_no_failure.2 "+a\n-b" hs
  have hlen : (splitlines ("+a\n-b").toList []).length = 2 := by decide
  rw [hlen] at h
  exact ⟨hs, h.1, h.2⟩

/-- When the capability succeeds on the `k`-th attempt after `k - 1`
failures, the retry loop returns that success after exactly `k`
invocations, from any starting index and any remembered exception. -/
theorem retryAux_ok {E A : Type} (cap : Nat → Except E A) (k : Nat) :
    ∀ (remaining idx : Nat) (last : Option E) (a : A),
    0 < k → k ≤ remaining →
    (∀ j, j < k - 1 → ∃ e, cap (idx + j) = .error e) →
    cap (idx + (k - 1)) = .ok a →
    retryAux cap remaining idx last = (.ok a, k) := by
  induction k with
  | zero => intro _ _ _ _ hk; exact absurd hk (by omega)
  | succ k ih =>
    intro remaining idx last a _ hle hfail hok
    obtain ⟨r, rfl⟩ : ∃ r, remaining = r + 1 := ⟨remaining - 1, by omega⟩
    by_cases hk0 : k = 0
    · subst hk0
      have hok' : cap idx = .ok a := by simpa using hok
      simp [retryAux, hok']
    · have hkpos : 0 < k := Nat.pos_of_ne_zero hk0
      obtain ⟨e, he⟩ := hfail 0 (by omega)
      have he' : cap idx = .error e := by simpa using he
      have ihh := ih r (idx + 1) (some e) a hkpos (by omega)
        (fun j hj => by
          obtain ⟨e', he''⟩ := hfail (j + 1) (by omega)
          exact ⟨e', by
            have : idx + 1 + j = idx + (j + 1) := by omega
            rw [this]; exact he''⟩)
        (by
          have : idx + 1 + (k - 1) = idx + (k + 1 - 1) := by omega
          rw [this]; exact hok)
      simp [retryAux, he', ihh]

/-- When the capability fails on all `r` attempts, the retry loop
propagates the last failure after exactly `r` invocations. -/
theorem retryAux_err {E A : Type} (cap : Nat → Except E A) (r : Nat) :
    ∀ (idx : Nat) (last : Option E) (e : E),
    0 < r →
    (∀ j, j < r - 1 → ∃ e', cap (idx + j) = .error e') →
    cap (idx + (r - 1)) = .error e →
    retryAux cap r idx last = (.error (some e), r) := by
  induction r with
  | zero => intro _ _ _ hr; exact absurd hr (by omega)
  | succ r ih =>
    intro idx last e _ hfail herr
    by_cases hr0 : r = 0
    · subst hr0
      have he' : cap idx = .error e := by simpa using herr
      simp [retryAux, he']
    · have hrpos : 0 < r := Nat.pos_of_ne_zero hr0
      obtain ⟨e0, he0⟩ := hfail 0 (by omega)
      have he0' : cap idx = .error e0 := by simpa using he0
      have ihh := ih (idx + 1) (some e0) e hrpos
        (fun j hj => by
          obtain ⟨e', he''⟩ := hfail (j + 1) (by omega)
          exact ⟨e', by
            have : idx + 1 + j = idx + (j + 1) := by omega
            rw [this]; exact he''⟩)
        (by
          have : idx + 1 + (r - 1) = idx + (r + 1 - 1) := by omega
          rw [this]; exact herr)
      simp [retryAux, he0', ihh]

/-- Claim C1: for every positive retry ceiling `maxAttempts`, the
retrying generation wrapper invokes the underlying capability at most
`maxAttempts` times.  Here `cap` is the capability applied to the (fixed,
arbitrary) conversation of one wrapped call, indexed by invocation
number: if the capability fails on the first `k - 1` invocations and
succeeds on the `k`-th (`k ≤ maxAttempts`), the wrapper returns that
success after exactly `k` invocations; if it fails on all `maxAttempts`
invocations, the wrapper propagates the final failure's cause, after
exactly `maxAttempts` invocations. -/
theorem claim_C1_retry_ceiling {E A : Type} (cap : Nat → Except E A)
    (maxAttempts : Nat) (hpos : 0 < maxAttempts) :
    (∀ (k : Nat) (a : A), 0 < k → k ≤ maxAttempts →
      (∀ j, j < k - 1 → ∃ e, cap j = .error e) → cap (k - 1) = .ok a →
      generate_with_retry cap maxAttempts 0 = (.ok a, k)) ∧
    (∀ e : E, (∀ j, j < maxAttempts - 1 → ∃ e', cap j = .error e') →
      cap (maxAttempts - 1) = .error e →
      generate_with_retry cap maxAttempts 0 =
        (.error (some e), maxAttempts)) := by
  constructor
  · intro k a hk hle hfail hok
    have h := retryAux_ok cap k maxAttempts 0 none a hk hle
      (fun j hj => by simpa using hfail j hj) (by simpa using hok)
    simpa [generate_with_retry] using h
  · intro e hfail herr
    have h := retryAux_err cap maxAttempts 0 none e hpos
      (fun j hj => by simpa using hfail j hj) (by simpa using herr)
    simpa [generate_with_retry] using h

/-- Witness for claim C1: a capability that fails twice then succeeds,
under a ceiling of 3, returns the success after exactly 3 invocations;
one that always fails, under a ceiling of 2, propagates the last failure
after exactly 2 invocations. -/
theorem claim_C1_retry_ceiling_witness :
    generate_with_retry
      (fun i => if i < 2 then (.error "boom" : Except String String)
        else .ok "text") 3 0 = (.ok "text", 3) ∧
    generate_with_retry (fun _ => (.error "x" : Except String String)) 2 0 =
      (.error (some "x"), 2) := by
  constructor
  · exact (claim_C1_retry_ceiling _ 3 (by omega)).1 3 "text" (by omega)
      (by omega)
      (fun j hj => ⟨"boom", by simp [show j < 2 by omega]⟩)
      rfl
  · exact (claim_C1_retry_ceiling _ 2 (by omega)).2 "x"
      (fun j _ => ⟨"x", rfl⟩) rfl

/-- Claim C5: the knowledge parser first attempts a direct JSON decode
(a successful direct decode is returned unchanged); if that fails it
locates the first opening-brace and last closing-brace characters and
attempts to decode that substring; the concrete text
`Sure! \x7b"solution": "do X"\x7d Thanks.` decodes this way to an object
with solution = "do X"; and when every attempt fails,
`parse_vulnerability_knowledge` surfaces a parse error carrying exactly
the first 200 characters of the offending text (stated here for text
containing no markdown fence and no `"vulnerability_behavior"` key, so
that the text reaches the decoder unchanged). -/
theorem claim_C5_tolerant_extraction :
    (∀ (t : String) (v : JsonVal), json_loads t = some v →
      safe_json_loads t = some v) ∧
    (∀ (t : String) (s e : Nat) (v : JsonVal), json_loads t = none →
      pyFindChar t.toList lbrace = some s →
      pyRFindChar t.toList rbrace = some e → s < e →
      json_loads (String.mk ((t.toList.drop s).take (e + 1 - s))) = some v →
      safe_json_loads t = some v) ∧
    safe_json_loads "Sure! \x7b\"solution\": \"do X\"\x7d Thanks." =
      some (.obj [("solution", .str "do X")]) ∧
    (∀ t : String,
      containsSub t.toList fenceJson = false →
      containsSub t.toList fence = false →
      containsSub t.toList vbKey = false →
      containsSub t.toList fenceNl = false →
      json_loads t = none →
      parse_vulnerability_knowledge t =
        .error (String.mk (t.toList.take 200))) := by
  refine ⟨?_, ?_, ?_, ?_⟩
  · intro t v h
    unfold safe_json_loads
    rw [h]
  · intro t s e v hn hf hr hlt hsub
    unfold safe_json_loads
    rw [hn]
    dsimp only
    rw [hf, hr]
    dsimp only
    rw [if_pos hlt, hsub]
  · rfl
  · intro t h1 h2 h3 h4 hn
    unfold parse_vulnerability_knowledge
    dsimp only
    simp only [h1, h2, h3, h4, Bool.false_eq_true, if_false]
    rw [show String.mk t.toList = t from by
      cases t with
      | mk data => rfl]
    rw [hn]

/-- Witness for claim C5: the direct-decode branch at `\x7b\x7d`, the
brace-substring branch at the spec's concrete example, and the error
branch at a fence-free non-JSON text whose full content (shorter than 200
characters) is carried in the parse error. -/
theorem claim_C5_tolerant_extraction_witness :
    safe_json_loads "\x7b\x7d" = some (.obj []) ∧
    safe_json_loads "Sure! \x7b\"solution\": \"do X\"\x7d Thanks." =
      some (.obj [("solution", .str "do X")]) ∧
    parse_vulnerability_knowledge "no json here" =
      .error "no json here" := by
  refine ⟨?_, ?_, ?_⟩
  · exact claim_C5_tolerant_extraction.1 "\x7b\x7d" (.obj []) rfl
  · exact claim_C5_tolerant_extraction.2.1
      "Sure! \x7b\"solution\": \"do X\"\x7d Thanks." 6 25
      (.obj [("solution", .str "do X")]) rfl rfl rfl (by omega) rfl
  · exact claim_C5_tolerant_extraction.2.2.2 "no json here" rfl rfl rfl rfl
      rfl

/-- Claim C10: when the tolerant decode of an LLM response yields a falsy
value — `None` on decode failure, but also the empty object decoded from
the valid JSON text `\x7b\x7d` — `process_single` returns `None` and the
record is skipped; a syntactically valid but empty JSON response is
treated identically to a parse failure. -/
theorem claim_C10_falsy_skip (raw : RawDiffDTO) (response_text : String) :
    (safe_json_loads response_text = none →
      process_single_model raw response_text = none) ∧
    (∀ v : JsonVal, safe_json_loads response_text = some v →
      pyTruthy v = false →
      process_single_model raw response_text = none) ∧
    (json_loads "\x7b\x7d" = some (.obj []) ∧
      pyTruthy (JsonVal.obj []) = false ∧
      process_single_model raw "\x7b\x7d" = none) := by
  refine ⟨?_, ?_, rfl, rfl, rfl⟩
  · intro h
    unfold process_single_model
    rw [h]
  · intro v hv ht
    unfold process_single_model
    rw [hv]
    simp [ht]

/-- Witness for claim C10: at the concrete fixture record, a non-JSON
response and the empty-object response `\x7b\x7d` are both skipped. -/
theorem claim_C10_falsy_skip_witness :
    process_single_model sampleRaw "not json at all" = none ∧
    process_single_model sampleRaw "\x7b\x7d" = none := by
  refine ⟨?_, ?_⟩
  · exact (claim_C10_falsy_skip sampleRaw "not json at all").1 rfl
  · exact (claim_C10_falsy_skip sampleRaw "\x7b\x7d").2.1 (.obj []) rfl rfl

/-- Claim C7: when resuming, the scheduler skips, without invoking the
extraction worker, exactly those input records whose identifier is in the
identifier set computed from the prior output, and invokes the worker for
every other input record; in particular, with a prior output containing
identifier 1 (the identifier of item A), a run over items A and B invokes
the worker only for B. -/
theorem claim_C7_resume_exclusion :
    (∀ (prompts : PromptBuilder) (cap : Cap) (rt : Nat) (item : Dict)
      (rset : List JsonVal) (idv : JsonVal),
      pyGet item "id" = some idv →
      (rset.any (fun x => jsonBeq x idv) = true →
        process_item_model prompts cap rt item rset = .ok (none, false)) ∧
      (rset.any (fun x => jsonBeq x idv) = false →
        process_item_model prompts cap rt item rset =
          (match extract_knowledge_model prompts cap rt item with
           | .ok r => .ok (r, true)
           | .error e => .error e))) ∧
    resume_ids_of [priorRecordA] = .ok [.num 1] ∧
    (extract_knowledge_pipeline_model true samplePrompts sampleCap 1
        [sampleItemA, sampleItemB] (some [priorRecordA])).toOption.map
      (fun l => l.map (fun p => p.2)) = some [false, true] := by
  refine ⟨?_, rfl, rfl⟩
  intro prompts cap rt item rset idv hid
  constructor
  · intro h
    unfold process_item_model
    rw [hid]
    dsimp only
    rw [h]
    rfl
  · intro h
    unfold process_item_model
    rw [hid]
    dsimp only
    rw [h]
    rfl

/-- Witness for claim C7: item A, whose identifier 1 is in the resume
set, is skipped without invoking the worker; item B, whose identifier 2
is not, reaches the worker. -/
theorem claim_C7_resume_exclusion_witness :
    process_item_model samplePrompts sampleCap 1 sampleItemA [.num 1] =
      .ok (none, false) ∧
    process_item_model samplePrompts sampleCap 1 sampleItemB [.num 1] =
      (match extract_knowledge_model samplePrompts sampleCap 1 sampleItemB with
       | .ok r => .ok (r, true)
       | .error e => .error e) := by
  constructor
  · exact ((claim_C7_resume_exclusion.1 samplePrompts sampleCap 1
      sampleItemA [.num 1] (.num 1) rfl).1 rfl)
  · exact ((claim_C7_resume_exclusion.1 samplePrompts sampleCap 1
      sampleItemB [.num 1] (.num 2) rfl).2 rfl)

/-- Claim C8 (counterexample): the claim asserts that every per-record
malformed-input failure is caught at the per-record boundary and never
aborts the overall run; but a record that carries an identifier and no
`cve_id` makes the per-record `except` handler itself raise `KeyError`
while formatting its log line, and that error aborts the run. -/
theorem claim_C8_counterexample :
    extract_knowledge_pipeline_model true samplePrompts sampleCap 1
      [badItem] none =
      .error "KeyError: cve_id (raised inside the except handler)" := rfl

/-- Claim C8 (amended): every per-record failure of a record that carries
its `cve_id` field — generation failure after retry exhaustion, parse
failure, malformed-input failure on any other field — is caught at the
per-record boundary and the run continues (the worker returns a skip,
never an escaping error); the only run-aborting conditions are failure to
initialize the generation capability (which halts the run before any
scheduling) and a record missing `id` or `cve_id`.  In particular, when
generation fails on every call for record A but succeeds for record B,
the run completes with A skipped and B recorded. -/
theorem claim_C8_failure_isolation :
    (∀ (prompts : PromptBuilder) (cap : Cap) (rt : Nat) (item : Dict),
      (pyGet item "cve_id").isSome = true →
      ∃ r : Option Dict,
        extract_knowledge_model prompts cap rt item = .ok r) ∧
    (∀ (prompts : PromptBuilder) (cap : Cap) (rt : Nat)
      (data : List Dict) (resume : Option (List Dict)),
      extract_knowledge_pipeline_model false prompts cap rt data resume =
        .error "sys.exit(1): failed to initialize LLM client") ∧
    (extract_knowledge_pipeline_model true samplePrompts sampleCap 1
        [sampleItemA, sampleItemB] none).toOption.map
      (fun l => l.map (fun p => (p.1.isSome, p.2))) =
      some [(false, true), (true, true)] := by
  refine ⟨?_, fun _ _ _ _ _ => rfl, rfl⟩
  intro prompts cap rt item h
  obtain ⟨v, hv⟩ := Option.isSome_iff_exists.mp h
  cases hb : extract_knowledge_body prompts cap rt item with
  | ok p =>
    obtain ⟨d, cs⟩ := p
    exact ⟨some d, by unfold extract_knowledge_model; rw [hb]⟩
  | error e =>
    exact ⟨none, by unfold extract_knowledge_model; rw [hb, hv]⟩

/-- Witness for claim C8: the catch-all per-record boundary applied at
the concrete record A (whose generation always fails): the worker
resolves without an escaping error. -/
theorem claim_C8_failure_isolation_witness :
    (pyGet sampleItemA "cve_id").isSome = true ∧
    ∃ r : Option Dict,
      extract_knowledge_model samplePrompts sampleCap 1 sampleItemA =
        .ok r := by
  have h : (pyGet sampleItemA "cve_id").isSome = true := rfl
  exact ⟨h, claim_C8_failure_isolation.1 samplePrompts sampleCap 1
    sampleItemA h⟩

/-- Reading a dict under the cons constructor. -/
theorem pyGet_cons (k0 : String) (v0 : JsonVal) (tl : Dict) (k' : String) :
    pyGet ((k0, v0) :: tl) k' = if k0 = k' then some v0 else pyGet tl k' := by
  by_cases h : k0 = k' <;> simp [pyGet, List.find?, h]

/-- Reading a dict after a Python-style insert: the inserted key reads
back the new value, every other key is unaffected. -/
theorem pyGet_pySet (d : Dict) (k k' : String) (v : JsonVal) :
    pyGet (pySet d k v) k' = if k' = k then some v else pyGet d k' := by
  induction d with
  | nil =>
    by_cases h : k' = k
    · subst h; simp [pySet, pyGet_cons, pyGet]
    · have h' : ¬ k = k' := fun hh => h hh.symm
      simp [pySet, pyGet_cons, h, h', pyGet]
  | cons hd tl ih =>
    obtain ⟨k0, v0⟩ := hd
    simp only [pySet]
    by_cases h0 : k0 = k
    · rw [if_pos h0]
      subst h0
      by_cases h : k' = k0
      · subst h; simp [pyGet_cons]
      · have h' : ¬ k0 = k' := fun hh => h hh.symm
        simp [pyGet_cons, h, h']
    · rw [if_neg h0]
      by_cases h : k0 = k'
      · subst h
        simp [pyGet_cons, h0]
      · simp [pyGet_cons, h, ih]

/-- Claim C6 (counterexample): the claim asserts that every required
sub-field missing from the decoded stage-4 object — `solution` included —
is filled with the empty string; but when the decoded object
`\x7b"vulnerability_behavior": \x7b"trigger_condition": "tc"\x7d\x7d`
carries no `solution` key anywhere, the assembled record has no
`solution` key at all (rather than solution = ""). -/
theorem claim_C6_counterexample :
    (assemble_output sampleItemA decodedNoSolution "anl" "purp"
        "func").toOption.map (fun d => pyGet d "solution") = some none ∧
    some (none : Option JsonVal) ≠ some (some (JsonVal.str "")) := by
  exact ⟨rfl, by simp⟩

/-- Claim C6 (amended): after a successful decode of the stage-4 output
(with `vulnerability_behavior` absent or an object `vbf`), the record is
always assembled — a missing field never fails the assembly or discards
the record — and the three `vulnerability_behavior` sub-fields are read
with default-empty-string fallback; the `solution` field, however, is
only copied out of a nested `vulnerability_behavior.solution` and is
otherwise left exactly as (and only if) the decoded object supplied it.
In the single-call variant (`process_single`), all seven fields —
`solution`, `purpose`, `function`, `analysis` and the three
`vulnerability_behavior` sub-fields — fall back to the empty string when
missing, and the record is still produced. -/
theorem claim_C6_default_fallback :
    (∀ (item output0 vbf : Dict) (a p f : String)
      (c1 i1 b1 a1 m1 : JsonVal),
      pyGet item "cve_id" = some c1 →
      pyGet item "id" = some i1 →
      pyGet item "code_before_change" = some b1 →
      pyGet item "code_after_change" = some a1 →
      pyGet item "function_modified_lines" = some m1 →
      pyGetD output0 "vulnerability_behavior" (.obj []) = .obj vbf →
      ∃ d : Dict,
        assemble_output item output0 a p f = .ok d ∧
        pyGet d "vulnerability_cause_description" =
          some (pyGetD vbf "vulnerability_cause_description" (.str "")) ∧
        pyGet d "trigger_condition" =
          some (pyGetD vbf "trigger_condition" (.str "")) ∧
        pyGet d "specific_code_behavior_causing_vulnerability" =
          some (pyGetD vbf "specific_code_behavior_causing_vulnerability"
            (.str "")) ∧
        pyGet d "solution" =
          (match pyGet vbf "solution" with
           | some sv => some sv
           | none => pyGet output0 "solution")) ∧
    (∀ (raw : RawDiffDTO) (response : String) (fs vbf2 : Dict),
      safe_json_loads response = some (.obj fs) →
      pyTruthy (.obj fs) = true →
      pyGetD fs "vulnerability_behavior" (.obj []) = .obj vbf2 →
      pyGet vbf2 "vulnerability_cause_description" = none →
      pyGet vbf2 "trigger_condition" = none →
      pyGet vbf2 "specific_code_behavior_causing_vulnerability" = none →
      pyGet fs "solution" = none →
      pyGet fs "purpose" = none →
      pyGet fs "function" = none →
      pyGet fs "analysis" = none →
      process_single_model raw response =
        some ⟨raw.cve_id, ⟨"", "", ""⟩, "", "", "", "",
          raw.code_before_change, raw.code_after_change,
          raw.function_modified_lines, "", "", ""⟩) := by
  constructor
  · intro item output0 vbf a p f c1 i1 b1 a1 m1 h1 h2 h3 h4 h5 hvb
    unfold assemble_output
    simp only [pyGetItem, h1, h2, h3, h4, h5, bind, Except.bind]
    have hvb8 : pyGetD (pySet (pySet (pySet (pySet (pySet (pySet (pySet
        (pySet output0 "analysis" (.str a)) "purpose"
          (.str (extract_LLM_response_by_marker p "Function purpose:")))
        "function" (.str (extract_LLM_response_by_marker f
          "The functions of the code snippet are:")))
        "CVE_id" c1) "id" i1) "code_before_change" b1)
        "code_after_change" a1) "modified_lines" m1)
        "vulnerability_behavior" (.obj []) = .obj vbf := by
      unfold pyGetD at hvb ⊢
      simp [pyGet_pySet]
      exact hvb
    rw [hvb8]
    cases hsol : pyGet vbf "solution" with
    | none =>
      simp only [pyContainsKey, hsol, Option.isSome_none, bind, Except.bind]
      simp only [Bool.false_eq_true, if_false, pure, Except.pure]
      rw [hvb8]
      simp only [pyAttrGet, bind, Except.bind]
      refine ⟨_, rfl, ?_, ?_, ?_, ?_⟩ <;> simp [pyGet_pySet]
    | some sv =>
      simp only [pyContainsKey, hsol, Option.isSome_some, bind, Except.bind]
      simp only [if_true, pyIndexVal, pyGetItem, hsol, pure, Except.pure]
      have hvb9 : pyGetD (pySet (pySet (pySet (pySet (pySet (pySet (pySet
          (pySet (pySet output0 "analysis" (.str a)) "purpose"
            (.str (extract_LLM_response_by_marker p "Function purpose:")))
          "function" (.str (extract_LLM_response_by_marker f
            "The functions of the code snippet are:")))
          "CVE_id" c1) "id" i1) "code_before_change" b1)
          "code_after_change" a1) "modified_lines" m1) "solution" sv)
          "vulnerability_behavior" (.obj []) = .obj vbf := by
        unfold pyGetD at hvb ⊢
        simp [pyGet_pySet]
        exact hvb
      rw [hvb9]
      simp only [pyAttrGet, bind, Except.bind]
      refine ⟨_, rfl, ?_, ?_, ?_, ?_⟩ <;> simp [pyGet_pySet]
  · intro raw response fs vbf2 hjson ht hvb2 hv1 hv2 hv3 hs1 hs2 hs3 hs4
    unfold process_single_model
    rw [hjson]
    dsimp only
    rw [ht]
    simp only [Bool.not_true, Bool.false_eq_true, if_false, bind,
      Except.bind]
    rw [hvb2]
    simp only [pyAttrGet, pyGetD, hv1, hv2, hv3, hs1, hs2, hs3, hs4,
      asPyStr, pure, Except.pure]

/-- Witness for claim C6: the four-stage assembly at the concrete decoded
object with a `vulnerability_behavior` carrying only `trigger_condition`:
the missing sub-fields read back as empty strings, the present one keeps
its value, and `solution` is absent; and the single-call variant at a
truthy response with no record fields produces a record whose extracted
fields are all empty strings. -/
theorem claim_C6_default_fallback_witness :
    (∃ d : Dict,
      assemble_output sampleItemA decodedNoSolution "anl" "purp" "func" =
        .ok d ∧
      pyGet d "vulnerability_cause_description" = some (.str "") ∧
      pyGet d "trigger_condition" = some (.str "tc") ∧
      pyGet d "specific_code_behavior_causing_vulnerability" =
        some (.str "") ∧
      pyGet d "solution" = none) ∧
    process_single_model sampleRaw fooResponse =
      some ⟨"CVE-0000-0001", ⟨"", "", ""⟩, "", "", "", "",
        "before", "after", .obj [], "", "", ""⟩ := by
  constructor
  · obtain ⟨d, hd, hx1, hx2, hx3, hx4⟩ :=
      claim_C6_default_fallback.1 sampleItemA decodedNoSolution
        [("trigger_condition", .str "tc")] "anl" "purp" "func"
        (.str "CVE-A") (.num 1) (.str "before A") (.str "after A")
        (.obj []) rfl rfl rfl rfl rfl rfl
    exact ⟨d, hd, hx1, hx2, hx3, hx4⟩
  · exact claim_C6_default_fallback.2 sampleRaw fooResponse
      [("note", .str "hi")] [] rfl rfl rfl rfl rfl rfl rfl rfl rfl rfl

/-- Claim C4: whenever the extraction worker completes a record, stage 1
(purpose) and stage 2 (function summary) were each issued as independent
single-turn conversations containing only their own prompt; stage 3 was
issued with conversation history exactly [stage-3 prompt]; and stage 4
was issued with the conversation exactly [stage-3 prompt (user), stage-3
response (assistant), stage-4 prompt (user)], in that order — where the
stage-3 response `o3` is the text returned by the (retried) stage-3
generation call. -/
theorem claim_C4_conversation_structure
    (prompts : PromptBuilder) (cap : Cap) (rt : Nat) (item : Dict)
    (cid cdesc ml cb ca : JsonVal)
    (h1 : pyGet item "cve_id" = some cid)
    (h2 : pyGet item "cve_description" = some cdesc)
    (h3 : pyGet item "function_modified_lines" = some ml)
    (h4 : pyGet item "code_before_change" = some cb)
    (h5 : pyGet item "code_after_change" = some ca)
    (p1 p2 p3 p4 : String)
    (hp : prompts cid cdesc ml cb ca = (p1, p2, p3, p4))
    (d : Dict) (calls : List (List Message))
    (hrun : extract_knowledge_body prompts cap rt item = .ok (d, calls)) :
    ∃ o3 : String,
      (∃ start : Nat,
        liftGen (generate_with_retry (fun i => cap i [⟨"user", p3⟩]) rt
          start).1 = .ok o3) ∧
      calls = [[⟨"user", p1⟩], [⟨"user", p2⟩], [⟨"user", p3⟩],
               [⟨"user", p3⟩, ⟨"assistant", o3⟩, ⟨"user", p4⟩]] := by
  unfold extract_knowledge_body at hrun
  simp only [pyGetItem, h1, h2, h3, h4, h5, bind, Except.bind] at hrun
  rw [hp] at hrun
  simp only [generate_simple_prompt, ne_eq, eq_self_iff_true,
    not_true_eq_false, if_false, List.nil_append] at hrun
  split at hrun
  · simp at hrun
  split at hrun
  · simp at hrun
  split at hrun
  · simp at hrun
  split at hrun
  · simp at hrun
  split at hrun
  · simp at hrun
  split at hrun
  · simp at hrun
  split at hrun
  · simp at hrun
  simp only [pure, Except.pure, Except.ok.injEq, Prod.mk.injEq,
    List.singleton_append] at hrun
  rename_i x1 o1 he1 x2 o2 he2 x3 o3 he3 x4 o4 he4 xp vp hep xo fs heo
    xa dd hea
  exact ⟨o3, ⟨_, he3⟩, hrun.2.symm⟩

/-- Witness for claim C4: the concrete successful run on item B issues
exactly the four claimed conversations. -/
theorem claim_C4_conversation_structure_witness :
    ∃ (d : Dict) (calls : List (List Message)) (o3 : String),
      extract_knowledge_body samplePrompts sampleCap 1 sampleItemB =
        .ok (d, calls) ∧
      calls = [[⟨"user", "CVE-B:p1"⟩], [⟨"user", "CVE-B:p2"⟩],
               [⟨"user", "CVE-B:p3"⟩],
               [⟨"user", "CVE-B:p3"⟩, ⟨"assistant", o3⟩,
                ⟨"user", "CVE-B:p4"⟩]] := by
  obtain ⟨pr, hpr⟩ : ∃ pr,
      extract_knowledge_body samplePrompts sampleCap 1 sampleItemB =
        .ok pr := ⟨_, rfl⟩
  obtain ⟨d, calls⟩ := pr
  obtain ⟨o3, _, hcalls⟩ := claim_C4_conversation_structure samplePrompts
    sampleCap 1 sampleItemB (.str "CVE-B") (.str "desc B") (.obj [])
    (.str "before B") (.str "after B") rfl rfl rfl rfl rfl
    "CVE-B:p1" "CVE-B:p2" "CVE-B:p3" "CVE-B:p4" rfl d calls hpr
  exact ⟨d, calls, o3, hpr, hcalls⟩

/-- The buffer invariant survives a program-counter change that crosses
no append boundary. -/
theorem buf_update_preserve {n : Nat} {R : Type} {rec : Fin n → R}
    {s : SchedState n R}
    (hbuf : ∃ l : List (Fin n), s.buffer = l.map rec ∧ l.Nodup ∧
      ∀ j, j ∈ l ↔ postAppend (s.pcs j))
    (i : Fin n) (Y : WStep) (hY : postAppend Y = postAppend (s.pcs i)) :
    ∃ l : List (Fin n), s.buffer = l.map rec ∧ l.Nodup ∧
      ∀ j, j ∈ l ↔ postAppend (Function.update s.pcs i Y j) := by
  obtain ⟨l, hb, hnd, hm⟩ := hbuf
  refine ⟨l, hb, hnd, fun j => ?_⟩
  by_cases hj : j = i
  · subst hj
    rw [Function.update_same, hY]
    exact hm j
  · rw [Function.update_noteq hj]
    exact hm j

/-- Lock-ownership bookkeeping survives a program-counter change of a
worker that stays inside the critical section. -/
theorem cs_lock_update_preserve {n : Nat} {R : Type} {s : SchedState n R}
    (hcs : ∀ j, inCS (s.pcs j) → s.lockOut = some j)
    (i : Fin n) (Y : WStep) (hin : inCS (s.pcs i)) :
    ∀ j, inCS (Function.update s.pcs i Y j) → s.lockOut = some j :=
  fun j hj => by
    by_cases hji : j = i
    · subst hji
      exact hcs j hin
    · rw [Function.update_noteq hji] at hj
      exact hcs j hj

/-- The converse ownership direction survives a program-counter change to
a state that is still inside the critical section. -/
theorem lock_cs_update_preserve {n : Nat} {R : Type} {s : SchedState n R}
    (hlc : ∀ j, s.lockOut = some j → inCS (s.pcs j))
    (i : Fin n) (Y : WStep) (hYin : inCS Y = true) :
    ∀ j, s.lockOut = some j → inCS (Function.update s.pcs i Y j) :=
  fun j hj => by
    by_cases hji : j = i
    · subst hji
      rw [Function.update_same]
      exact hYin
    · rw [Function.update_noteq hji]
      exact hlc j hj

/-- The initial state satisfies the scheduler invariant. -/
theorem schedInv_init (n : Nat) (R : Type) (rec : Fin n → R) :
    SchedInv rec (initSched n R) := by
  refine ⟨?_, ?_, ⟨[], rfl, List.nodup_nil, ?_⟩, ⟨[], rfl, List.nodup_nil⟩,
    fun _ => rfl, ?_⟩
  · intro i hi
    simp [initSched, inCS] at hi
  · intro i hl
    simp [initSched] at hl
  · intro j
    simp [initSched, postAppend]
  · intro i hl
    simp [initSched] at hl

/-- Every atomic worker action preserves the scheduler invariant. -/
theorem schedInv_step {n : Nat} {R : Type} {rec : Fin n → R}
    {s s' : SchedState n R} (h : SchedInv rec s)
    (hstep : SchedStep rec s s') : SchedInv rec s' := by
  cases hstep with
  | acquireOut i s hpc hlock =>
    refine ⟨?_, ?_, ?_, h.file_wf, ?_, ?_⟩
    · intro j hj
      dsimp only at hj ⊢
      by_cases hji : j = i
      · subst hji; rfl
      · rw [Function.update_noteq hji] at hj
        exact absurd (h.cs_lock j hj) (by rw [hlock]; simp)
    · intro j hl
      dsimp only at hl ⊢
      have hji : j = i := by
        simpa using hl.symm
      subst hji
      rw [Function.update_same]
      rfl
    · exact buf_update_preserve h.buf i _ (by rw [hpc]; rfl)
    · intro hq
      dsimp only at hq
      simp at hq
    · intro j hl hpcs
      dsimp only at hl hpcs ⊢
      have hji : j = i := by simpa using hl.symm
      subst hji
      rw [Function.update_same] at hpcs
      rcases hpcs with hc | hc <;> exact absurd hc (by simp)
  | appendRec i s hpc =>
    have hlock : s.lockOut = some i := h.cs_lock i (by rw [hpc]; rfl)
    refine ⟨?_, ?_, ?_, h.file_wf, ?_, ?_⟩
    · exact cs_lock_update_preserve h.cs_lock i _ (by rw [hpc]; rfl)
    · exact lock_cs_update_preserve h.lock_cs i _ rfl
    · obtain ⟨l, hb, hnd, hm⟩ := h.buf
      refine ⟨l ++ [i], by dsimp only; rw [hb]; simp, ?_,
        fun j => ?_⟩
      · refine List.Nodup.append hnd (List.nodup_singleton i) ?_
        intro a ha hb'
        rw [List.mem_singleton] at hb'
        subst hb'
        have := (hm a).mp ha
        rw [hpc] at this
        simp [postAppend] at this
      · dsimp only
        by_cases hj : j = i
        · subst hj
          rw [Function.update_same]
          simp [postAppend]
        · rw [Function.update_noteq hj]
          simp only [List.mem_append, List.mem_singleton]
          rw [hm j]
          simp [hj]
    · intro hq
      dsimp only at hq
      rw [hq] at hlock
      exact absurd hlock (by simp)
    · intro j hl hpcs
      dsimp only at hl hpcs ⊢
      have hji : j = i := by
        rw [hl] at hlock
        simpa using hlock
      subst hji
      rw [Function.update_same] at hpcs
      rcases hpcs with hc | hc <;> exact absurd hc (by simp)
  | acquireFile i s hpc hfl =>
    have hlock : s.lockOut = some i := h.cs_lock i (by rw [hpc]; rfl)
    refine ⟨?_, ?_, ?_, h.file_wf, ?_, ?_⟩
    · exact cs_lock_update_preserve h.cs_lock i _ (by rw [hpc]; rfl)
    · exact lock_cs_update_preserve h.lock_cs i _ rfl
    · exact buf_update_preserve h.buf i _ (by rw [hpc]; rfl)
    · intro hq
      dsimp only at hq
      rw [hq] at hlock
      exact absurd hlock (by simp)
    · intro j hl hpcs
      dsimp only at hl hpcs ⊢
      have hji : j = i := by
        rw [hl] at hlock
        simpa using hlock
      subst hji
      rw [Function.update_same] at hpcs
      rcases hpcs with hc | hc <;> exact absurd hc (by simp)
  | writeFile i s hpc =>
    have hlock : s.lockOut = some i := h.cs_lock i (by rw [hpc]; rfl)
    refine ⟨?_, ?_, ?_, ?_, ?_, ?_⟩
    · exact cs_lock_update_preserve h.cs_lock i _ (by rw [hpc]; rfl)
    · exact lock_cs_update_preserve h.lock_cs i _ rfl
    · exact buf_update_preserve h.buf i _ (by rw [hpc]; rfl)
    · obtain ⟨l, hb, hnd, _⟩ := h.buf
      exact ⟨l, hb, hnd⟩
    · intro _
      rfl
    · intro j _ _
      rfl
  | releaseFile i s hpc =>
    have hlock : s.lockOut = some i := h.cs_lock i (by rw [hpc]; rfl)
    refine ⟨?_, ?_, ?_, h.file_wf, ?_, ?_⟩
    · exact cs_lock_update_preserve h.cs_lock i _ (by rw [hpc]; rfl)
    · exact lock_cs_update_preserve h.lock_cs i _ rfl
    · exact buf_update_preserve h.buf i _ (by rw [hpc]; rfl)
    · intro hq
      dsimp only at hq
      rw [hq] at hlock
      exact absurd hlock (by simp)
    · intro j hl hpcs
      dsimp only at hl hpcs ⊢
      have hji : j = i := by
        rw [hl] at hlock
        simpa using hlock
      subst hji
      exact h.file_written j hlock (Or.inl hpc)
  | releaseOut i s hpc =>
    have hlock : s.lockOut = some i := h.cs_lock i (by rw [hpc]; rfl)
    refine ⟨?_, ?_, ?_, h.file_wf, ?_, ?_⟩
    · intro j hj
      dsimp only at hj ⊢
      by_cases hji : j = i
      · subst hji
        rw [Function.update_same] at hj
        simp [inCS] at hj
      · rw [Function.update_noteq hji] at hj
        have hcs := h.cs_lock j hj
        rw [hcs] at hlock
        exact absurd (by simpa using hlock) hji
    · intro j hl
      dsimp only at hl
      simp at hl
    · exact buf_update_preserve h.buf i _ (by rw [hpc]; rfl)
    · intro _
      exact h.file_written i hlock (Or.inr hpc)
    · intro j hl
      dsimp only at hl
      simp at hl

/-- The scheduler invariant holds in every reachable state. -/
theorem schedInv_reachable {n : Nat} {R : Type} {rec : Fin n → R}
    {s : SchedState n R} (h : SchedReach rec s) : SchedInv rec s := by
  induction h with
  | refl => exact schedInv_init n R rec
  | tail _ hstep ih => exact schedInv_step ih hstep

/-- Claim C3: in every reachable state of the lock-protected
append-and-flush system — for any number of concurrent workers `n` (the
spec exercises a pool of 8 threads over `n = 50` records; a pool of any
size only restricts the interleavings) — at most one worker is inside the
append-and-flush critical section (no two append-and-flush sequences
interleave), the persisted file is always a well-formed array of distinct
records, the file equals the buffer whenever the lock is free, and in any
terminal state where every worker has completed, the persisted file
equals the buffer, which holds exactly `n` records — with pairwise
distinct identifiers whenever the record identifiers are injective. -/
theorem claim_C3_buffer_consistency (n : Nat) (R : Type) (ident : R → Int)
    (rec : Fin n → R) (s : SchedState n R)
    (hreach : SchedReach rec s) :
    (∀ i j : Fin n, inCS (s.pcs i) → inCS (s.pcs j) → i = j) ∧
    (∃ lf : List (Fin n), s.file = lf.map rec ∧ lf.Nodup) ∧
    (s.lockOut = none → s.file = s.buffer) ∧
    ((∀ i, s.pcs i = .done) →
      s.file = s.buffer ∧ s.buffer.length = n ∧
      (Function.Injective (fun i => ident (rec i)) →
        (s.buffer.map ident).Nodup)) := by
  have hinv := schedInv_reachable hreach
  refine ⟨?_, hinv.file_wf, hinv.file_quiet, ?_⟩
  · intro i j hi hj
    have h1 := hinv.cs_lock i hi
    have h2 := hinv.cs_lock j hj
    rw [h1] at h2
    exact Option.some.inj h2
  · intro hdone
    have hlock : s.lockOut = none := by
      cases hl : s.lockOut with
      | none => rfl
      | some i =>
        have hc := hinv.lock_cs i hl
        rw [hdone i] at hc
        simp [inCS] at hc
    refine ⟨hinv.file_quiet hlock, ?_, ?_⟩
    · obtain ⟨l, hbuf, hnd, hmem⟩ := hinv.buf
      have hall : ∀ j : Fin n, j ∈ l := fun j => (hmem j).mpr (by
        rw [hdone j]; rfl)
      have hcard : l.length = n := by
        have hu : l.toFinset = Finset.univ :=
          Finset.eq_univ_iff_forall.mpr
            (fun j => List.mem_toFinset.mpr (hall j))
        have hc := List.toFinset_card_of_nodup hnd
        rw [hu] at hc
        simpa using hc.symm
      rw [hbuf, List.length_map, hcard]
    · intro hinj
      obtain ⟨l, hbuf, hnd, _⟩ := hinv.buf
      rw [hbuf, List.map_map]
      exact hnd.map hinj

/-- Witness for claim C3: an explicit interleaved execution with one
worker carrying the record 7 reaches a terminal state whose persisted
file equals the buffer, with exactly one record and distinct
identifiers. -/
theorem claim_C3_buffer_consistency_witness :
    ∃ s : SchedState 1 Int,
      SchedReach (fun _ => (7 : Int)) s ∧ (∀ i, s.pcs i = .done) ∧
      s.file = s.buffer ∧ s.buffer.length = 1 ∧
      (s.buffer.map (fun r => r)).Nodup := by
  have hex : ∃ s : SchedState 1 Int,
      SchedReach (fun _ => (7 : Int)) s ∧ (∀ i, s.pcs i = .done) := by
    refine ⟨_,
      Relation.ReflTransGen.head
        (SchedStep.acquireOut 0 (initSched 1 Int) rfl rfl)
      (Relation.ReflTransGen.head (SchedStep.appendRec 0 _ rfl)
      (Relation.ReflTransGen.head (SchedStep.acquireFile 0 _ rfl rfl)
      (Relation.ReflTransGen.head (SchedStep.writeFile 0 _ rfl)
      (Relation.ReflTransGen.head (SchedStep.releaseFile 0 _ rfl)
      (Relation.ReflTransGen.head (SchedStep.releaseOut 0 _ rfl)
        Relation.ReflTransGen.refl))))), ?_⟩
    intro i
    fin_cases i
    rfl
  obtain ⟨s, hr, hd⟩ := hex
  have h := claim_C3_buffer_consistency 1 Int (fun r => r) (fun _ => 7) s hr
  exact ⟨s, hr, hd, (h.2.2.2 hd).1, (h.2.2.2 hd).2.1,
    (h.2.2.2 hd).2.2 (fun a b _ => Subsingleton.elim a b)⟩

end NLD
